import Mathlib

/-!
Verification of the Risk Estimation & Intervention-Trigger Engine of the
relapse-prevention app. Shallow embedding of the TypeScript services
(`riskProfile.ts`, `riskAnalysis.ts`, `mlPredictor.ts`, the intervention
gate in `onboarding.tsx`) into Lean, with the claims settled as theorems.

Numbers: SQL counts and hours are `Nat`, epoch-millisecond timestamps and
risk percentages are `Int`, fractional averages are `Rat`, and the logistic
model is over `Real` (the source uses `Math.exp`). `Math.round` is
`⌊x + 1/2⌋` (JavaScript rounds half toward +∞).
-/

namespace Relapse
/-- JavaScript `Math.round`: round half toward positive infinity. -/
def jsRound (q : ℚ) : ℤ := ⌊q + 1/2⌋

/-- Risk level enum used by `riskProfile.ts` (`'LOW' | 'MODERATE' | 'HIGH'`). -/
inductive RiskLevel where
  | LOW | MODERATE | HIGH
deriving DecidableEq, Repr

/-- One entry of the 24-hour risk curve (`HourlyRiskProfile` in `riskProfile.ts`). -/
structure HourlyRiskProfile where
  hour : ℕ
  baseRisk : ℕ
  riskLevel : RiskLevel
  label : String
deriving DecidableEq, Repr

/-- The onboarding profile row read by `getUserProfile` in `riskProfile.ts`. -/
structure UserProfile where
  screenTime : String
  riskHours : List String
  triggers : List String
  alonePattern : String
  dayPattern : String
  urgeDuration : ℕ
deriving DecidableEq, Repr

/-- `formatHour` from `riskProfile.ts`. -/
def formatHour (hour : ℕ) : String :=
  if hour = 0 then "12 AM"
  else if hour < 12 then toString hour ++ " AM"
  else if hour = 12 then "12 PM"
  else toString (hour - 12) ++ " PM"

/-- The `switch(timeWindow)` table in `calculate24HourProfile`. -/
def windowHours (timeWindow : String) : List ℕ :=
  if timeWindow = "morning" then [6, 7, 8, 9, 10, 11]
  else if timeWindow = "afternoon" then [12, 13, 14, 15, 16, 17]
  else if timeWindow = "evening" then [18, 19, 20, 21]
  else if timeWindow = "latenight" then [22, 23, 0, 1]
  else if timeWindow = "verylate" then [2, 3, 4, 5]
  else []

/-- The `profile.riskHours.forEach` pass: +35 for each selected window
containing this hour (duplicate selections add twice, as in the source). -/
def riskWindowBonus (riskHours : List String) (hour : ℕ) : ℕ :=
  riskHours.foldl (fun acc w => if hour ∈ windowHours w then acc + 35 else acc) 0

/-- The un-clamped risk for one hour: baseline 15 plus the window, screen-time,
trigger and alone-pattern additions of `calculate24HourProfile`. -/
def baseRiskRaw (p : UserProfile) (hour : ℕ) : ℕ :=
  15 + riskWindowBonus p.riskHours hour
  + (if p.screenTime = "6+ hours" then 10 else if p.screenTime = "4-6 hours" then 5 else 0)
  + (if "loneliness" ∈ p.triggers ∧ hour ∈ [20, 21, 22, 23, 0, 1, 2] then 15 else 0)
  + (if "fatigue" ∈ p.triggers ∧ hour ∈ [22, 23, 0, 1, 2, 3] then 15 else 0)
  + (if "boredom" ∈ p.triggers ∧ hour ∈ [12, 13, 14, 15, 20, 21, 22] then 10 else 0)
  + (if "socialmedia" ∈ p.triggers ∧ hour ∈ [19, 20, 21, 22, 23, 0] then 12 else 0)
  + (if p.alonePattern = "always" ∨ p.alonePattern = "usually" then 8 else 0)

/-- The final clamp of `calculate24HourProfile`: `Math.min(95, Math.max(5, r))`. -/
def clampRisk (r : ℕ) : ℕ := min 95 (max 5 r)

/-- The threshold function assigning `riskLevel` from `baseRisk`
(HIGH if ≥70, MODERATE if ≥40, else LOW), as in `calculate24HourProfile`. -/
def riskLevelOf (r : ℕ) : RiskLevel :=
  if r ≥ 70 then RiskLevel.HIGH
  else if r ≥ 40 then RiskLevel.MODERATE
  else RiskLevel.LOW

/-- `calculate24HourProfile` from `riskProfile.ts`: flat default curve when no
profile exists, otherwise the additive curve clamped to [5,95] with levels. -/
def calculate24HourProfile (profile : Option UserProfile) : List HourlyRiskProfile :=
  match profile with
  | none =>
      (List.range 24).map fun hour =>
        { hour, baseRisk := 20, riskLevel := RiskLevel.LOW, label := formatHour hour }
  | some p =>
      (List.range 24).map fun hour =>
        let r := clampRisk (baseRiskRaw p hour)
        { hour, baseRisk := r
          riskLevel :=
            if r ≥ 70 then RiskLevel.HIGH
            else if r ≥ 40 then RiskLevel.MODERATE
            else RiskLevel.LOW
          label := formatHour hour }

/-! ### Intervention gate (`shouldTriggerIntervention` in `onboarding.tsx`)

The database is modelled as `Option (List ℤ)`: `none` when the handle is
unavailable, otherwise the list of `interventions` row timestamps. The SQL
`SELECT COUNT(*) ... WHERE timestamp > ?` is a filtered length. -/

/-- `shouldTriggerIntervention` from `onboarding.tsx`. -/
def shouldTriggerIntervention (currentRisk : ℤ) (dbInterventions : Option (List ℤ))
    (now : ℤ) : Bool :=
  if currentRisk < 70 then false
  else
    match dbInterventions with
    | none => true
    | some log => (log.filter (fun t => now - 30 * 60 * 1000 < t)).length = 0

/-! ### Frequency estimator (`getRiskForCurrentHour` / `getRiskForHour`
in `riskAnalysis.ts`)

The SQL average of daily screen-on counts for the hour is the input `n : ℚ`;
the piecewise curve, rounding and final clamp are translated directly. -/

/-- The piecewise unlock-count → risk-score curve shared by
`getRiskForCurrentHour` and `getRiskForHour` in `riskAnalysis.ts`. -/
def screenOnRiskScore (avgUnlocks : ℚ) : ℚ :=
  if avgUnlocks = 0 then 20
  else if avgUnlocks ≤ 2 then 20 + avgUnlocks * 5
  else if avgUnlocks ≤ 5 then 30 + (avgUnlocks - 2) * (667/100)
  else if avgUnlocks ≤ 9 then 50 + (avgUnlocks - 5) * 5
  else 70 + min ((avgUnlocks - 9) * 4) 20

/-- `getRiskForHour` (and `getRiskForCurrentHour`) after the SQL average:
`Math.min(100, Math.max(0, Math.round(riskScore)))`. -/
def getRiskForHourModel (avgUnlocks : ℚ) : ℤ :=
  min 100 (max 0 (jsRound (screenOnRiskScore avgUnlocks)))

/-! ### Safe-Harbor scanner (`getNextSafeHarbor` in `riskProfile.ts`,
`getSafeHarborTime` in `riskAnalysis.ts`)

Both scan forward hour by hour for the first hour with risk < 40; they differ
only in horizon (24 vs 12) and in which risk curve they read, so the loop is
embedded once over an abstract hourly risk function. -/

/-- Result of a safe-harbor scan (`{safeHour, hoursUntil, minutesUntil}`). -/
structure SafeHarbor where
  safeHour : ℕ
  hoursUntil : ℕ
  minutesUntil : ℕ
deriving DecidableEq, Repr

/-- The `for (offset = 1; offset <= horizon; offset++)` loop: returns the
first offset (counting from `off`, with `rem` iterations left) whose hour has
risk under 40. -/
def safeHarborLoop (risk : ℕ → ℤ) (currentHour : ℕ) : ℕ → ℕ → Option ℕ
  | _, 0 => none
  | off, rem + 1 =>
      if risk ((currentHour + off) % 24) < 40 then some off
      else safeHarborLoop risk currentHour (off + 1) rem

/-- The shared scan: find the first qualifying offset in `1..horizon`, then
convert it to `hoursUntil`/`minutesUntil` exactly as both sources do. -/
def safeHarborScan (risk : ℕ → ℤ) (horizon currentHour currentMinutes : ℕ) :
    Option SafeHarbor :=
  match safeHarborLoop risk currentHour 1 horizon with
  | none => none
  | some off =>
      let minutesUntil := 60 - currentMinutes
      if minutesUntil = 60 then
        some ⟨(currentHour + off) % 24, off, 0⟩
      else
        some ⟨(currentHour + off) % 24, off - 1, minutesUntil⟩

/-- `getNextSafeHarbor` (profile variant, `riskProfile.ts`): 24-hour horizon. -/
def getNextSafeHarborModel (risk : ℕ → ℤ) (currentHour currentMinutes : ℕ) :
    Option SafeHarbor :=
  safeHarborScan risk 24 currentHour currentMinutes

/-- `getSafeHarborTime` (frequency variant, `riskAnalysis.ts`): 12-hour horizon. -/
def getSafeHarborTimeModel (risk : ℕ → ℤ) (currentHour currentMinutes : ℕ) :
    Option SafeHarbor :=
  safeHarborScan risk 12 currentHour currentMinutes

/-- The scan property for one variant with a fixed horizon. -/
def SafeHarborSpec (risk : ℕ → ℤ) (horizon currentHour currentMinutes : ℕ)
    (res : Option SafeHarbor) : Prop :=
  (res = none ↔ ∀ off, 1 ≤ off → off ≤ horizon → 40 ≤ risk ((currentHour + off) % 24)) ∧
  ∀ sh, res = some sh →
    ∃ off, 1 ≤ off ∧ off ≤ horizon ∧ risk ((currentHour + off) % 24) < 40 ∧
      (∀ off', 1 ≤ off' → off' < off → 40 ≤ risk ((currentHour + off') % 24)) ∧
      sh.safeHour = (currentHour + off) % 24 ∧
      ((currentMinutes = 0 → sh.minutesUntil = 0 ∧ sh.hoursUntil = off) ∧
       (0 < currentMinutes → sh.minutesUntil = 60 - currentMinutes ∧ sh.hoursUntil = off - 1))

/-! ### Peak Window Finder (`getPeakDangerWindow` in `riskProfile.ts`)

The 24-entry curve is read through an hour → `baseRisk` function (only hours
0–23 are ever indexed, via `% 24`). The source also copies the profile's
trigger list into the result; the claims are about the window fields. -/

/-- Result of `getPeakDangerWindow` (the window fields). -/
structure PeakWindow where
  startHour : ℕ
  endHour : ℕ
  avgRisk : ℤ
deriving DecidableEq, Repr

/-- Mean `baseRisk` over `len` consecutive hours from `start`, wrapping mod 24
(the inner `hours` accumulation and `avg` of the source). -/
def windowAvg (risk : ℕ → ℕ) (start len : ℕ) : ℚ :=
  ((List.range len).map (fun i => (risk ((start + i) % 24) : ℚ))).sum / len

/-- The scan order of the two nested loops: start 0–23 outer,
length 3–6 inner. -/
def peakScanPairs : List (ℕ × ℕ) :=
  (List.range 24).flatMap (fun start => [(start, 3), (start, 4), (start, 5), (start, 6)])

/-- The running maximum `(maxAvg, maxStart, maxEnd)` of the scan. -/
structure PeakScanState where
  maxAvg : ℚ
  maxStart : ℕ
  maxEnd : ℕ
deriving DecidableEq, Repr

/-- One iteration of the scan: update the running maximum when
`avg > maxAvg`, recording `end = (start + length) % 24`. -/
def peakStep (risk : ℕ → ℕ) (st : PeakScanState) (p : ℕ × ℕ) : PeakScanState :=
  if st.maxAvg < windowAvg risk p.1 p.2 then
    ⟨windowAvg risk p.1 p.2, p.1, (p.1 + p.2) % 24⟩
  else st

/-- `getPeakDangerWindow` over an abstract hourly risk curve: fold the scan
from `(0, 0, 0)` and round the best average. -/
def getPeakDangerWindowModel (risk : ℕ → ℕ) : PeakWindow :=
  let st := peakScanPairs.foldl (peakStep risk) ⟨0, 0, 0⟩
  ⟨st.maxStart, st.maxEnd, jsRound st.maxAvg⟩

/-- The hour → `baseRisk` curve of `calculate24HourProfile`, as read by
`getPeakDangerWindow` and `getNextSafeHarbor`. -/
def profileBaseRisk (profile : Option UserProfile) (hour : ℕ) : ℕ :=
  match profile with
  | none => 20
  | some p => clampRisk (baseRiskRaw p hour)

/-- `getPeakDangerWindow` on the stored profile's curve. -/
def getPeakDangerWindow (profile : Option UserProfile) : PeakWindow :=
  getPeakDangerWindowModel (profileBaseRisk profile)

/-- The claim C3 as stated, with `endHour = (start + length - 1) % 24`. -/
def PeakClaimAsStated (risk : ℕ → ℕ) : Prop :=
  ∃ s l pre post,
    peakScanPairs = pre ++ (s, l) :: post ∧
    (∀ q ∈ pre, windowAvg risk q.1 q.2 < windowAvg risk s l) ∧
    (∀ q ∈ peakScanPairs, windowAvg risk q.1 q.2 ≤ windowAvg risk s l) ∧
    (getPeakDangerWindowModel risk).startHour = s ∧
    (getPeakDangerWindowModel risk).endHour = (s + l - 1) % 24 ∧
    (getPeakDangerWindowModel risk).avgRisk = jsRound (windowAvg risk s l)

/-! ### Logistic predictor (`mlPredictor.ts`)

`extractFeatures` reads the store with per-field fallbacks and derives
`isLateNight` and `isRecentUrge` from `hour` and `hoursSinceLastUrge`; the
predictor itself is a pure function of the feature record and the fixed
weight table. `JSON.stringify` of the fixed-shape feature record is
injective, so the input hash is modelled as the record itself. -/

/-- `'low' | 'medium' | 'high'` confidence. -/
inductive Confidence where
  | low | medium | high
deriving DecidableEq, Repr

/-- Severity tags of `RiskFactor`. -/
inductive Severity where
  | high | medium | low | protective
deriving DecidableEq, Repr

/-- `RiskFactor` from `mlPredictor.ts`. -/
structure RiskFactor where
  label : String
  impact : ℕ
  severity : Severity
deriving DecidableEq, Repr

/-- `PredictionFeatures` from `mlPredictor.ts`. -/
structure PredictionFeatures where
  hour : ℕ
  dayOfWeek : ℕ
  screenUnlocksLastHour : ℕ
  hoursSinceLastUrge : ℚ
  eveningRoutineDone : Bool
  isLateNight : Bool
  isRecentUrge : Bool
  stressLevel : ℤ
  lonelinessLevel : ℤ
deriving DecidableEq, Repr

/-- The feature record as `extractFeatures` builds it: `isLateNight` is
`hour >= 22 || hour <= 4` and `isRecentUrge` is `hoursSinceLastUrge < 2`. -/
def mkFeatures (hour dayOfWeek screenUnlocksLastHour : ℕ) (hoursSinceLastUrge : ℚ)
    (eveningRoutineDone : Bool) (stressLevel lonelinessLevel : ℤ) : PredictionFeatures :=
  { hour, dayOfWeek, screenUnlocksLastHour, hoursSinceLastUrge, eveningRoutineDone
    isLateNight := decide (22 ≤ hour ∨ hour ≤ 4)
    isRecentUrge := decide (hoursSinceLastUrge < 2)
    stressLevel, lonelinessLevel }

/-- The rule pushes of `generateReasoning`, in source order. -/
def rawFactors (f : PredictionFeatures) : List RiskFactor :=
  (if f.isLateNight then [⟨"Late night hours", 45, Severity.high⟩] else [])
  ++ (if 5 < f.screenUnlocksLastHour then
        [if 15 < f.screenUnlocksLastHour then
          ⟨"Digital restlessness (" ++ toString f.screenUnlocksLastHour ++ " unlocks/hr)",
            35, Severity.high⟩
         else
          ⟨"Digital restlessness (" ++ toString f.screenUnlocksLastHour ++ " unlocks/hr)",
            20, Severity.medium⟩]
      else [])
  ++ (if 0 < f.stressLevel then
        [if 2 ≤ f.stressLevel then ⟨"High stress level (😰)", 32, Severity.high⟩
         else ⟨"Moderate stress", 16, Severity.medium⟩]
      else [])
  ++ (if 0 < f.lonelinessLevel then
        [if 2 ≤ f.lonelinessLevel then ⟨"Feeling lonely (🙍)", 24, Severity.medium⟩
         else ⟨"Feeling disconnected", 12, Severity.low⟩]
      else [])
  ++ (if f.eveningRoutineDone = false ∧ 20 ≤ f.hour then
        [⟨"Evening routine skipped", 15, Severity.medium⟩]
      else [])
  ++ (if f.eveningRoutineDone then [⟨"Evening routine completed", 25, Severity.protective⟩]
      else [])
  ++ (if f.hoursSinceLastUrge < 1 then
        [⟨"Recent urge (refractory period)", 40, Severity.protective⟩]
      else [])

/-- The implicit-protective synthesis: when no pushed factor is protective,
append "Stable circadian rhythm" (not late night) or "Monitoring active". -/
def withProtective (f : PredictionFeatures) : List RiskFactor :=
  let factors := rawFactors f
  if factors.any (fun x => x.severity = Severity.protective) then factors
  else
    factors ++
      [if f.isLateNight = false then ⟨"Stable circadian rhythm", 15, Severity.protective⟩
       else ⟨"Monitoring active", 10, Severity.protective⟩]

/-- Stable insertion step for descending impact: insert before the first
strictly smaller element (models the stable `sort((a,b) => b.impact - a.impact)`). -/
def insertFactorDesc (x : RiskFactor) : List RiskFactor → List RiskFactor
  | [] => [x]
  | y :: ys => if y.impact < x.impact then x :: y :: ys else y :: insertFactorDesc x ys

/-- Stable sort by impact, descending. -/
def sortFactorsDesc : List RiskFactor → List RiskFactor
  | [] => []
  | x :: xs => insertFactorDesc x (sortFactorsDesc xs)

set_option linter.unusedVariables false in
/-- `generateReasoning` from `mlPredictor.ts`: push rules, synthesize a
protective entry, sort by impact descending, truncate to the top 5, and fall
back to "Baseline activity" on an empty list. The `probability` argument is
taken but never read, as in the source. -/
def generateReasoning (f : PredictionFeatures) (probability : ℝ) : List RiskFactor :=
  let sorted := sortFactorsDesc (withProtective f)
  let top := if 5 < sorted.length then sorted.take 5 else sorted
  if top.length = 0 then [⟨"Baseline activity", 5, Severity.low⟩] else top

/-- The fixed `MODEL_WEIGHTS` table. -/
structure ModelWeights where
  intercept : ℝ
  hour : ℝ
  dayOfWeek : ℝ
  screenUnlocksLastHour : ℝ
  recentUrgeBonus : ℝ
  eveningRoutineDone : ℝ
  isLateNight : ℝ
  stressLevel : ℝ
  lonelinessLevel : ℝ

noncomputable def MODEL_WEIGHTS : ModelWeights :=
  { intercept := -2.5
    hour := 0.08
    dayOfWeek := 0.02
    screenUnlocksLastHour := 0.15
    recentUrgeBonus := -4.0
    eveningRoutineDone := -0.8
    isLateNight := 1.2
    stressLevel := 0.8
    lonelinessLevel := 0.6 }

/-- The linear score `z` of `predictUrgeRisk`. -/
noncomputable def computeZ (f : PredictionFeatures) : ℝ :=
  MODEL_WEIGHTS.intercept
  + MODEL_WEIGHTS.hour * f.hour
  + MODEL_WEIGHTS.dayOfWeek * f.dayOfWeek
  + MODEL_WEIGHTS.screenUnlocksLastHour * f.screenUnlocksLastHour
  + MODEL_WEIGHTS.recentUrgeBonus * (if f.isRecentUrge then 1 else 0)
  + MODEL_WEIGHTS.eveningRoutineDone * (if f.eveningRoutineDone then 1 else 0)
  + MODEL_WEIGHTS.isLateNight * (if f.isLateNight then 1 else 0)
  + MODEL_WEIGHTS.stressLevel * f.stressLevel
  + MODEL_WEIGHTS.lonelinessLevel * f.lonelinessLevel

/-- `probability = 1 / (1 + e^(-z))`. -/
noncomputable def sigmoid (z : ℝ) : ℝ := 1 / (1 + Real.exp (-z))

/-- `Math.round(probability * 100) / 100`: the stored probability is rounded
to two decimals. -/
noncomputable def jsRound2 (p : ℝ) : ℝ := (⌊p * 100 + 1/2⌋ : ℝ) / 100

/-- `determineConfidence` from `mlPredictor.ts`. -/
def determineConfidence (f : PredictionFeatures) : Confidence :=
  if f.hoursSinceLastUrge < 2 then Confidence.high
  else if 10 < f.screenUnlocksLastHour then Confidence.high
  else if 12 < f.hoursSinceLastUrge then Confidence.low
  else Confidence.medium

/-- `PredictionResult` from `mlPredictor.ts`. -/
structure PredictionResult where
  probability : ℝ
  confidence : Confidence
  riskLevel : RiskLevel
  factors : List RiskFactor

/-- The cache-miss computation of `predictUrgeRisk`: score, sigmoid,
confidence, risk level thresholds (LOW < 0.3 ≤ MODERATE < 0.7 ≤ HIGH),
reasoning, and the two-decimal rounding of the stored probability. -/
noncomputable def predictCompute (f : PredictionFeatures) : PredictionResult :=
  let probability := sigmoid (computeZ f)
  { probability := jsRound2 probability
    confidence := determineConfidence f
    riskLevel :=
      if probability < 0.3 then RiskLevel.LOW
      else if probability < 0.7 then RiskLevel.MODERATE
      else RiskLevel.HIGH
    factors := generateReasoning f probability }

/-- The single cache slot (`PredictionCache`): result, feature hash,
write timestamp. -/
structure PredictionCacheSlot where
  result : PredictionResult
  inputHash : PredictionFeatures
  timestamp : ℤ

/-- One call to `predictUrgeRisk` as a state transformer on the cache slot:
return the cached result when the hash matches and the slot is younger than
300000 ms, otherwise recompute and overwrite the slot. -/
noncomputable def predictStep (slot : Option PredictionCacheSlot) (now : ℤ)
    (f : PredictionFeatures) : PredictionResult × Option PredictionCacheSlot :=
  match slot with
  | some c =>
      if c.inputHash = f ∧ now - c.timestamp < 300000 then (c.result, some c)
      else (predictCompute f, some ⟨predictCompute f, f, now⟩)
  | none => (predictCompute f, some ⟨predictCompute f, f, now⟩)

/-- `invalidatePredictionCache`: clears the slot. -/
def invalidatePredictionCache (_slot : Option PredictionCacheSlot) :
    Option PredictionCacheSlot :=
  none

/-! ### Retrospective accuracy (`calculateModelAccuracy` in `mlPredictor.ts`) -/

/-- One `risk_history` row. -/
structure RiskSnapshot where
  timestamp : ℤ
  score : ℤ
deriving DecidableEq, Repr

/-- The SQL `CASE WHEN EXISTS` subquery: some urge log falls in
`[r.timestamp, r.timestamp + 7200000]`. -/
def urgeWithinWindow (urgeLogs : List ℤ) (r : RiskSnapshot) : Bool :=
  urgeLogs.any (fun t => r.timestamp ≤ t ∧ t ≤ r.timestamp + 7200000)

/-- The joined query rows: snapshots of the trailing 30 days paired with
their 2-hour urge outcome. -/
def accuracyRows (snaps : List RiskSnapshot) (urgeLogs : List ℤ) (now : ℤ) :
    List (ℤ × Bool) :=
  (snaps.filter (fun r => now - 30 * 24 * 60 * 60 * 1000 < r.timestamp)).map
    (fun r => (r.score, urgeWithinWindow urgeLogs r))

/-- `isHighRisk && urgeHappened` of the accuracy loop. -/
def isTP (row : ℤ × Bool) : Bool := decide (60 ≤ row.1) && row.2

/-- `!isHighRisk && !urgeHappened` of the accuracy loop. -/
def isTN (row : ℤ × Bool) : Bool := decide (row.1 < 60) && !row.2

/-- One iteration of the accuracy loop over `(TP, TN, totalEvaluated)`. -/
def accStep (acc : ℕ × ℕ × ℕ) (row : ℤ × Bool) : ℕ × ℕ × ℕ :=
  if isTP row then (acc.1 + 1, acc.2.1, acc.2.2 + 1)
  else if isTN row then (acc.1, acc.2.1 + 1, acc.2.2 + 1)
  else (acc.1, acc.2.1, acc.2.2 + 1)

/-- `calculateModelAccuracy` on the query outcome: 58 when the query fails
(`none`) or fewer than 5 rows exist, otherwise `round((TP + TN) / total * 100)`. -/
def calculateModelAccuracy (rows : Option (List (ℤ × Bool))) : ℤ :=
  match rows with
  | none => 58
  | some results =>
      if results.length < 5 then 58
      else
        let acc := results.foldl accStep (0, 0, 0)
        if acc.2.2 = 0 then 58
        else jsRound ((acc.1 + acc.2.1 : ℚ) / acc.2.2 * 100)

/-! ## Theorems -/

/-- C1. For every onboarding profile input (including the no-profile default),
the returned curve has 24 entries, and every entry has `baseRisk ∈ [5,95]`
with `riskLevel` equal to the threshold function of `baseRisk`. -/
theorem calculate24HourProfile_invariant (profile : Option UserProfile) :
    (calculate24HourProfile profile).length = 24 ∧
    ∀ e ∈ calculate24HourProfile profile,
      5 ≤ e.baseRisk ∧ e.baseRisk ≤ 95 ∧ e.riskLevel = riskLevelOf e.baseRisk := by
  constructor
  · cases profile <;> simp [calculate24HourProfile]
  · intro e he
    cases profile with
    | none =>
        simp only [calculate24HourProfile, List.mem_map, List.mem_range] at he
        obtain ⟨h, -, rfl⟩ := he
        refine ⟨by norm_num, by norm_num, ?_⟩
        simp [riskLevelOf]
    | some p =>
        simp only [calculate24HourProfile, List.mem_map, List.mem_range] at he
        obtain ⟨h, -, rfl⟩ := he
        refine ⟨?_, ?_, ?_⟩
        · simp only [clampRisk]
          exact le_min (by norm_num) (le_max_left 5 _)
        · exact min_le_left _ _
        · simp [riskLevelOf]

/-- Witness for C1 at the no-profile default and its first entry. -/
theorem calculate24HourProfile_invariant_witness :
    (⟨0, 20, RiskLevel.LOW, "12 AM"⟩ : HourlyRiskProfile) ∈ calculate24HourProfile none ∧
    (5 ≤ (20 : ℕ) ∧ (20 : ℕ) ≤ 95 ∧ RiskLevel.LOW = riskLevelOf 20) := by
  have hm : (⟨0, 20, RiskLevel.LOW, "12 AM"⟩ : HourlyRiskProfile) ∈ calculate24HourProfile none := by
    simp only [calculate24HourProfile, List.mem_map, List.mem_range]
    exact ⟨0, by norm_num, by simp [formatHour]⟩
  exact ⟨hm, (calculate24HourProfile_invariant none).2 _ hm⟩

/-- C2. With the database available, the gate returns `true` iff
`currentRisk ≥ 70` and no intervention was shown in the trailing 30 minutes;
it returns `false` for every `currentRisk < 70`, and `false` whenever a shown
intervention exists in the last 30 minutes even when `currentRisk ≥ 70`. -/
theorem shouldTriggerIntervention_gate (currentRisk : ℤ) (log : List ℤ) (now : ℤ) :
    (shouldTriggerIntervention currentRisk (some log) now = true ↔
      70 ≤ currentRisk ∧ (log.filter (fun t => now - 30 * 60 * 1000 < t)).length = 0) ∧
    (currentRisk < 70 → shouldTriggerIntervention currentRisk (some log) now = false) ∧
    ((∃ t ∈ log, now - 30 * 60 * 1000 < t) →
      shouldTriggerIntervention currentRisk (some log) now = false) := by
  refine ⟨?_, ?_, ?_⟩
  · constructor
    · intro htrue
      unfold shouldTriggerIntervention at htrue
      by_cases h : currentRisk < 70
      · simp [h] at htrue
      · rw [if_neg h] at htrue
        exact ⟨by omega, by simpa using htrue⟩
    · rintro ⟨h70, hcount⟩
      unfold shouldTriggerIntervention
      rw [if_neg (not_lt.mpr h70)]
      simpa using hcount
  · intro h
    simp [shouldTriggerIntervention, h]
  · rintro ⟨t, ht, hrec⟩
    unfold shouldTriggerIntervention
    by_cases h : currentRisk < 70
    · simp [h]
    · rw [if_neg h]
      simp only [decide_eq_false_iff_not]
      intro hlen
      rw [List.length_eq_zero] at hlen
      have hmem : t ∈ log.filter (fun t => now - 30 * 60 * 1000 < t) :=
        List.mem_filter.mpr ⟨ht, by simpa using hrec⟩
      rw [hlen] at hmem
      exact absurd hmem (List.not_mem_nil t)

/-- Witness for C2: risk 80 with one intervention shown 10 minutes ago. -/
theorem shouldTriggerIntervention_gate_witness :
    ((80 : ℤ) < 70 → shouldTriggerIntervention 80 (some [1800000]) 2400000 = false) ∧
    ((∃ t ∈ [(1800000 : ℤ)], (2400000 : ℤ) - 30 * 60 * 1000 < t) →
      shouldTriggerIntervention 80 (some [1800000]) 2400000 = false) ∧
    shouldTriggerIntervention 80 (some [1800000]) 2400000 = false := by
  have h := shouldTriggerIntervention_gate 80 [1800000] 2400000
  exact ⟨h.2.1, h.2.2, h.2.2 ⟨1800000, by simp, by norm_num⟩⟩

/-- C10. With the database handle unavailable (`none`), the gate skips the
30-minute anti-spam check: it returns `true` for every `currentRisk ≥ 70`
and `false` for every `currentRisk < 70`. -/
theorem shouldTriggerIntervention_noDb (currentRisk : ℤ) (now : ℤ) :
    (70 ≤ currentRisk → shouldTriggerIntervention currentRisk none now = true) ∧
    (currentRisk < 70 → shouldTriggerIntervention currentRisk none now = false) := by
  constructor
  · intro h
    unfold shouldTriggerIntervention
    rw [if_neg (not_lt.mpr h)]
  · intro h
    simp [shouldTriggerIntervention, h]

/-- Witness for C10 at risk 70 and risk 69. -/
theorem shouldTriggerIntervention_noDb_witness :
    shouldTriggerIntervention 70 none 0 = true ∧
    shouldTriggerIntervention 69 none 0 = false :=
  ⟨(shouldTriggerIntervention_noDb 70 0).1 (by norm_num),
   (shouldTriggerIntervention_noDb 69 0).2 (by norm_num)⟩

theorem le_jsRound {k : ℤ} {q : ℚ} (h : (k : ℚ) ≤ q) : k ≤ jsRound q :=
  Int.le_floor.mpr (by linarith)

theorem jsRound_le {k : ℤ} {q : ℚ} (h : q < (k : ℚ) + 1/2) : jsRound q ≤ k := by
  have hk : jsRound q < k + 1 := Int.floor_lt.mpr (by push_cast; linarith)
  omega

/-- On `0 ≤ n` the rounded curve value stays in `[20, 90]`. -/
theorem screenOnRiskScore_round_bounds (n : ℚ) (hn : 0 ≤ n) :
    20 ≤ jsRound (screenOnRiskScore n) ∧ jsRound (screenOnRiskScore n) ≤ 90 := by
  unfold screenOnRiskScore
  split_ifs with h1 h2 h3 h4
  · exact ⟨le_jsRound (by norm_num), jsRound_le (by norm_num)⟩
  · exact ⟨le_jsRound (by push_cast; nlinarith), jsRound_le (by push_cast; nlinarith)⟩
  · exact ⟨le_jsRound (by push_cast; nlinarith), jsRound_le (by push_cast; nlinarith)⟩
  · exact ⟨le_jsRound (by push_cast; nlinarith), jsRound_le (by push_cast; nlinarith)⟩
  · have hmin : min ((n - 9) * 4) 20 ≤ 20 := min_le_right _ _
    have hpos : (0 : ℚ) ≤ min ((n - 9) * 4) 20 := le_min (by nlinarith) (by norm_num)
    exact ⟨le_jsRound (by push_cast; linarith), jsRound_le (by push_cast; linarith)⟩

/-- The clamp `min 100 (max 0 r)` is the identity on the curve's range. -/
theorem getRiskForHourModel_eq_round (n : ℚ) (hn : 0 ≤ n) :
    getRiskForHourModel n = jsRound (screenOnRiskScore n) := by
  obtain ⟨hlo, hhi⟩ := screenOnRiskScore_round_bounds n hn
  unfold getRiskForHourModel
  rw [max_eq_right (by omega), min_eq_right (by omega)]

/-- C5. For every nonnegative average daily screen-on count `n` for the hour,
the frequency estimator follows the claimed piecewise curve, never exceeds 90,
never drops below 0, and `n = 11` yields 78. -/
theorem getRiskForHour_curve (n : ℚ) (hn : 0 ≤ n) :
    (n = 0 → getRiskForHourModel n = 20) ∧
    (0 < n → n ≤ 2 → getRiskForHourModel n = jsRound (20 + 5 * n)) ∧
    (2 < n → n ≤ 5 → getRiskForHourModel n = jsRound (30 + (667/100) * (n - 2))) ∧
    (5 < n → n ≤ 9 → getRiskForHourModel n = jsRound (50 + 5 * (n - 5))) ∧
    (9 < n → getRiskForHourModel n = jsRound (70 + min (4 * (n - 9)) 20)) ∧
    (0 ≤ getRiskForHourModel n ∧ getRiskForHourModel n ≤ 90) ∧
    getRiskForHourModel 11 = 78 := by
  have h11 : getRiskForHourModel 11 = 78 := by
    rw [getRiskForHourModel_eq_round 11 (by norm_num)]
    have hs : screenOnRiskScore 11 = 78 := by
      unfold screenOnRiskScore
      norm_num
    rw [hs]
    have h1 : (78 : ℤ) ≤ jsRound 78 := le_jsRound (by norm_num)
    have h2 : jsRound (78 : ℚ) ≤ 78 := jsRound_le (by norm_num)
    omega
  obtain ⟨hlo, hhi⟩ := screenOnRiskScore_round_bounds n hn
  refine ⟨?_, ?_, ?_, ?_, ?_, ⟨?_, ?_⟩, h11⟩
  · intro h0
    rw [getRiskForHourModel_eq_round n hn]
    have hs : screenOnRiskScore n = 20 := by unfold screenOnRiskScore; rw [if_pos h0]
    rw [hs]
    have h1 : (20 : ℤ) ≤ jsRound 20 := le_jsRound (by norm_num)
    have h2 : jsRound (20 : ℚ) ≤ 20 := jsRound_le (by norm_num)
    omega
  · intro hpos hle
    rw [getRiskForHourModel_eq_round n hn]
    have hs : screenOnRiskScore n = 20 + n * 5 := by
      unfold screenOnRiskScore
      rw [if_neg (ne_of_gt hpos), if_pos hle]
    rw [hs]
    congr 1
    ring
  · intro hgt hle
    rw [getRiskForHourModel_eq_round n hn]
    have hs : screenOnRiskScore n = 30 + (n - 2) * (667/100) := by
      unfold screenOnRiskScore
      rw [if_neg (by linarith), if_neg (by linarith), if_pos hle]
    rw [hs]
    congr 1
    ring
  · intro hgt hle
    rw [getRiskForHourModel_eq_round n hn]
    have hs : screenOnRiskScore n = 50 + (n - 5) * 5 := by
      unfold screenOnRiskScore
      rw [if_neg (by linarith), if_neg (by linarith), if_neg (by linarith), if_pos hle]
    rw [hs]
    congr 1
    ring
  · intro hgt
    rw [getRiskForHourModel_eq_round n hn]
    have hs : screenOnRiskScore n = 70 + min ((n - 9) * 4) 20 := by
      unfold screenOnRiskScore
      rw [if_neg (by linarith), if_neg (by linarith), if_neg (by linarith), if_neg (by linarith)]
    rw [hs, mul_comm (n - 9) 4]
  · rw [getRiskForHourModel_eq_round n hn]; omega
  · rw [getRiskForHourModel_eq_round n hn]; omega

/-- Witness for C5 at `n = 11`: the estimate is 78 as in the spec scenario. -/
theorem getRiskForHour_curve_witness :
    (0 : ℚ) ≤ 11 ∧ getRiskForHourModel 11 = 78 :=
  ⟨by norm_num, (getRiskForHour_curve 11 (by norm_num)).2.2.2.2.2.2⟩

theorem safeHarborLoop_none_iff (risk : ℕ → ℤ) (currentHour : ℕ) :
    ∀ rem off, safeHarborLoop risk currentHour off rem = none ↔
      ∀ k, off ≤ k → k < off + rem → 40 ≤ risk ((currentHour + k) % 24) := by
  intro rem
  induction rem with
  | zero =>
      intro off
      simp only [safeHarborLoop]
      constructor
      · intro _ k hk1 hk2
        omega
      · intro _
        trivial
  | succ n ih =>
      intro off
      simp only [safeHarborLoop]
      by_cases h : risk ((currentHour + off) % 24) < 40
      · simp only [if_pos h]
        constructor
        · intro hcontra
          exact absurd hcontra (by simp)
        · intro hall
          exact absurd (hall off (le_refl off) (by omega)) (by omega)
      · simp only [if_neg h]
        rw [ih (off + 1)]
        constructor
        · intro hall k hk1 hk2
          rcases Nat.eq_or_lt_of_le hk1 with heq | hlt
          · subst heq
            omega
          · exact hall k hlt (by omega)
        · intro hall k hk1 hk2
          exact hall k (by omega) (by omega)

theorem safeHarborLoop_some_iff (risk : ℕ → ℤ) (currentHour : ℕ) :
    ∀ rem off res, safeHarborLoop risk currentHour off rem = some res →
      off ≤ res ∧ res < off + rem ∧ risk ((currentHour + res) % 24) < 40 ∧
      ∀ k, off ≤ k → k < res → 40 ≤ risk ((currentHour + k) % 24) := by
  intro rem
  induction rem with
  | zero =>
      intro off res h
      exact absurd h (by simp [safeHarborLoop])
  | succ n ih =>
      intro off res h
      simp only [safeHarborLoop] at h
      by_cases hr : risk ((currentHour + off) % 24) < 40
      · rw [if_pos hr] at h
        obtain rfl : off = res := by simpa using h
        exact ⟨le_refl _, by omega, hr, fun k hk1 hk2 => by omega⟩
      · rw [if_neg hr] at h
        obtain ⟨h1, h2, h3, h4⟩ := ih (off + 1) res h
        refine ⟨by omega, by omega, h3, ?_⟩
        intro k hk1 hk2
        rcases Nat.eq_or_lt_of_le hk1 with heq | hlt
        · subst heq
          omega
        · exact h4 k hlt hk2

theorem safeHarborScan_spec (risk : ℕ → ℤ) (horizon currentHour currentMinutes : ℕ)
    (hm : currentMinutes < 60) :
    SafeHarborSpec risk horizon currentHour currentMinutes
      (safeHarborScan risk horizon currentHour currentMinutes) := by
  constructor
  · unfold safeHarborScan
    cases hloop : safeHarborLoop risk currentHour 1 horizon with
    | none =>
        simp only [true_iff]
        intro off h1 h2
        exact ((safeHarborLoop_none_iff risk currentHour horizon 1).mp hloop) off h1 (by omega)
    | some off =>
        constructor
        · intro h
          by_cases h60 : 60 - currentMinutes = 60 <;> simp [h60] at h
        · intro hall
          obtain ⟨h1, h2, h3, -⟩ := safeHarborLoop_some_iff risk currentHour horizon 1 off hloop
          exact absurd h3 (by have := hall off h1 (by omega); omega)
  · intro sh hsh
    unfold safeHarborScan at hsh
    cases hloop : safeHarborLoop risk currentHour 1 horizon with
    | none => rw [hloop] at hsh; exact absurd hsh (by simp)
    | some off =>
        rw [hloop] at hsh
        obtain ⟨h1, h2, h3, h4⟩ := safeHarborLoop_some_iff risk currentHour horizon 1 off hloop
        refine ⟨off, h1, by omega, h3, fun k hk1 hk2 => h4 k hk1 hk2, ?_, ?_, ?_⟩
        · by_cases h60 : 60 - currentMinutes = 60 <;> simp [h60] at hsh <;> rw [← hsh]
        · intro h0
          have h60 : 60 - currentMinutes = 60 := by omega
          simp [h60] at hsh
          rw [← hsh]
          exact ⟨rfl, rfl⟩
        · intro h0
          have h60 : ¬(60 - currentMinutes = 60) := by omega
          simp [h60] at hsh
          rw [← hsh]
          exact ⟨rfl, rfl⟩

/-- C6. For every hourly risk function and current time, both safe-harbor
variants return `none` exactly when every hour in their horizon (24 for the
profile variant, 12 for the frequency variant) has risk ≥ 40, and otherwise
return the first qualifying hour in forward scan order with
`minutesUntil = 60 - currentMinute`, `hoursUntil = offset - 1` when the
current minute is positive, and `minutesUntil = 0`, `hoursUntil = offset`
when the current minute is 0. -/
theorem safeHarbor_firstQualifying (risk : ℕ → ℤ) (currentHour currentMinutes : ℕ)
    (hm : currentMinutes < 60) :
    SafeHarborSpec risk 24 currentHour currentMinutes
      (getNextSafeHarborModel risk currentHour currentMinutes) ∧
    SafeHarborSpec risk 12 currentHour currentMinutes
      (getSafeHarborTimeModel risk currentHour currentMinutes) :=
  ⟨safeHarborScan_spec risk 24 currentHour currentMinutes hm,
   safeHarborScan_spec risk 12 currentHour currentMinutes hm⟩

/-- Witness for C6: a flat risk-50 curve at 14:30 yields no safe harbor. -/
theorem safeHarbor_firstQualifying_witness :
    (30 : ℕ) < 60 ∧
    (SafeHarborSpec (fun _ => 50) 24 14 30 (getNextSafeHarborModel (fun _ => 50) 14 30) ∧
     SafeHarborSpec (fun _ => 50) 12 14 30 (getSafeHarborTimeModel (fun _ => 50) 14 30)) :=
  ⟨by norm_num, safeHarbor_firstQualifying (fun _ => 50) 14 30 (by norm_num)⟩

/-- Characterisation of the scan fold: the result dominates the initial state
and every scanned window, and is either the initial state (nothing beat it) or
the first window in the list that attains the final maximum, every earlier
window being strictly smaller. -/
theorem peakFoldl_spec (risk : ℕ → ℕ) :
    ∀ (L : List (ℕ × ℕ)) (st0 : PeakScanState),
      st0.maxAvg ≤ (L.foldl (peakStep risk) st0).maxAvg ∧
      (∀ p ∈ L, windowAvg risk p.1 p.2 ≤ (L.foldl (peakStep risk) st0).maxAvg) ∧
      (L.foldl (peakStep risk) st0 = st0 ∨
        ∃ pre q post, L = pre ++ q :: post ∧
          (L.foldl (peakStep risk) st0).maxAvg = windowAvg risk q.1 q.2 ∧
          (L.foldl (peakStep risk) st0).maxStart = q.1 ∧
          (L.foldl (peakStep risk) st0).maxEnd = (q.1 + q.2) % 24 ∧
          st0.maxAvg < (L.foldl (peakStep risk) st0).maxAvg ∧
          ∀ r ∈ pre, windowAvg risk r.1 r.2 < (L.foldl (peakStep risk) st0).maxAvg) := by
  intro L
  induction L with
  | nil =>
      intro st0
      exact ⟨le_refl _, by simp, Or.inl rfl⟩
  | cons p L ih =>
      intro st0
      rw [List.foldl_cons]
      by_cases h : st0.maxAvg < windowAvg risk p.1 p.2
      · have hstep : peakStep risk st0 p = ⟨windowAvg risk p.1 p.2, p.1, (p.1 + p.2) % 24⟩ := by
          unfold peakStep
          rw [if_pos h]
        rw [hstep]
        obtain ⟨hmono, hall, hdisj⟩ := ih ⟨windowAvg risk p.1 p.2, p.1, (p.1 + p.2) % 24⟩
        refine ⟨le_of_lt (lt_of_lt_of_le h hmono), ?_, ?_⟩
        · intro r hr
          rcases List.mem_cons.mp hr with heq | hmem
          · subst heq
            exact hmono
          · exact hall r hmem
        · right
          rcases hdisj with heq | ⟨pre, q, post, hL, h1, h2, h3, h4, h5⟩
          · refine ⟨[], p, L, by simp, ?_, ?_, ?_, ?_, by simp⟩
            · rw [heq]
            · rw [heq]
            · rw [heq]
            · rw [heq]
              exact h
          · refine ⟨p :: pre, q, post, by rw [hL]; simp, h1, h2, h3,
              lt_trans h h4, ?_⟩
            intro r hr
            rcases List.mem_cons.mp hr with heq | hmem
            · subst heq
              exact h4
            · exact h5 r hmem
      · have hstep : peakStep risk st0 p = st0 := by
          unfold peakStep
          rw [if_neg h]
        rw [hstep]
        obtain ⟨hmono, hall, hdisj⟩ := ih st0
        refine ⟨hmono, ?_, ?_⟩
        · intro r hr
          rcases List.mem_cons.mp hr with heq | hmem
          · subst heq
            exact le_trans (not_lt.mp h) hmono
          · exact hall r hmem
        · rcases hdisj with heq | ⟨pre, q, post, hL, h1, h2, h3, h4, h5⟩
          · exact Or.inl heq
          · right
            refine ⟨p :: pre, q, post, by rw [hL]; simp, h1, h2, h3, h4, ?_⟩
            intro r hr
            rcases List.mem_cons.mp hr with heq | hmem
            · subst heq
              exact lt_of_le_of_lt (not_lt.mp h) h4
            · exact h5 r hmem

set_option maxRecDepth 4000 in
/-- Every scanned pair has start in 0–23 and length in 3–6. -/
theorem peakScanPairs_bounds : ∀ q ∈ peakScanPairs, q.1 < 24 ∧ 3 ≤ q.2 ∧ q.2 ≤ 6 := by
  decide

set_option maxRecDepth 8000 in
/-- The scan order is lexicographic: increasing start, then increasing length. -/
theorem peakScanPairs_lex :
    peakScanPairs.Pairwise (fun a b => a.1 < b.1 ∨ (a.1 = b.1 ∧ a.2 < b.2)) := by
  decide

/-- With every hour's risk at least 5 (the curve invariant), every window
average is at least 5. -/
theorem windowAvg_ge_five (risk : ℕ → ℕ) (h5 : ∀ h, h < 24 → 5 ≤ risk h)
    (start len : ℕ) (hl : 0 < len) : (5 : ℚ) ≤ windowAvg risk start len := by
  unfold windowAvg
  rw [le_div_iff₀ (by positivity)]
  have hbound : ((List.range len).map (fun _ => (5 : ℚ))).sum ≤
      ((List.range len).map (fun i => (risk ((start + i) % 24) : ℚ))).sum := by
    apply List.sum_le_sum
    intro i _
    have : 5 ≤ risk ((start + i) % 24) := h5 _ (Nat.mod_lt _ (by norm_num))
    exact_mod_cast this
  have hconst : ((List.range len).map (fun _ => (5 : ℚ))).sum = 5 * len := by
    rw [List.map_const', List.sum_replicate, List.length_range, nsmul_eq_mul]
    ring
  linarith [hbound, hconst.symm.le]

set_option maxRecDepth 100000 in
/-- C3 (amended). For every hourly risk curve satisfying the `baseRisk ≥ 5`
invariant, the peak finder examines every start 0–23 and length 3–6 with
mod-24 wraparound, returns the first maximal-mean window in scan order
(increasing start, then increasing length), with `startHour` the window's
start, `avgRisk` the rounded mean, and `endHour = (start + length) % 24`
(one past the window's last hour), both hours in [0,23]. -/
theorem getPeakDangerWindow_spec (risk : ℕ → ℕ) (h5 : ∀ h, h < 24 → 5 ≤ risk h) :
    ∃ s l pre post,
      peakScanPairs = pre ++ (s, l) :: post ∧
      s < 24 ∧ 3 ≤ l ∧ l ≤ 6 ∧
      (∀ q ∈ pre, windowAvg risk q.1 q.2 < windowAvg risk s l) ∧
      (∀ q ∈ peakScanPairs, windowAvg risk q.1 q.2 ≤ windowAvg risk s l) ∧
      (getPeakDangerWindowModel risk).startHour = s ∧
      (getPeakDangerWindowModel risk).endHour = (s + l) % 24 ∧
      (getPeakDangerWindowModel risk).endHour < 24 ∧
      (getPeakDangerWindowModel risk).avgRisk = jsRound (windowAvg risk s l) := by
  obtain ⟨hmono, hall, hdisj⟩ := peakFoldl_spec risk peakScanPairs ⟨0, 0, 0⟩
  rcases hdisj with heq | ⟨pre, q, post, hL, h1, h2, h3, h4, h5pre⟩
  · exfalso
    have hmem : ((0, 3) : ℕ × ℕ) ∈ peakScanPairs := by
      set_option maxRecDepth 4000 in decide
    have hle := hall (0, 3) hmem
    rw [heq] at hle
    have := windowAvg_ge_five risk h5 0 3 (by norm_num)
    simp at hle
    linarith
  · have hqmem : q ∈ peakScanPairs := by
      rw [hL]
      exact List.mem_append_right _ (List.mem_cons_self _ _)
    obtain ⟨hq1, hq2, hq3⟩ := peakScanPairs_bounds q hqmem
    refine ⟨q.1, q.2, pre, post, by rw [hL], hq1, hq2, hq3, ?_, ?_, ?_, ?_, ?_, ?_⟩
    · intro r hr
      have := h5pre r hr
      rw [h1] at this
      exact this
    · intro r hr
      have := hall r hr
      rw [h1] at this
      exact this
    · show (peakScanPairs.foldl (peakStep risk) ⟨0, 0, 0⟩).maxStart = q.1
      exact h2
    · show (peakScanPairs.foldl (peakStep risk) ⟨0, 0, 0⟩).maxEnd = (q.1 + q.2) % 24
      exact h3
    · show (peakScanPairs.foldl (peakStep risk) ⟨0, 0, 0⟩).maxEnd < 24
      rw [h3]
      exact Nat.mod_lt _ (by norm_num)
    · show jsRound (peakScanPairs.foldl (peakStep risk) ⟨0, 0, 0⟩).maxAvg =
        jsRound (windowAvg risk q.1 q.2)
      rw [h1]

/-- Witness for C3 (amended) at the flat risk-5 curve. -/
theorem getPeakDangerWindow_spec_witness :
    (∀ h, h < 24 → 5 ≤ (fun _ => 5 : ℕ → ℕ) h) ∧
    (∃ s l pre post,
      peakScanPairs = pre ++ (s, l) :: post ∧
      s < 24 ∧ 3 ≤ l ∧ l ≤ 6 ∧
      (∀ q ∈ pre, windowAvg (fun _ => 5) q.1 q.2 < windowAvg (fun _ => 5) s l) ∧
      (∀ q ∈ peakScanPairs, windowAvg (fun _ => 5) q.1 q.2 ≤ windowAvg (fun _ => 5) s l) ∧
      (getPeakDangerWindowModel (fun _ => 5)).startHour = s ∧
      (getPeakDangerWindowModel (fun _ => 5)).endHour = (s + l) % 24 ∧
      (getPeakDangerWindowModel (fun _ => 5)).endHour < 24 ∧
      (getPeakDangerWindowModel (fun _ => 5)).avgRisk = jsRound (windowAvg (fun _ => 5) s l)) :=
  ⟨fun _ _ => le_refl 5, getPeakDangerWindow_spec (fun _ => 5) (fun _ _ => le_refl 5)⟩

/-- Every window average of the flat risk-5 curve is 5. -/
theorem windowAvg_const_five (q : ℕ × ℕ) (hq : q ∈ peakScanPairs) :
    windowAvg (fun _ => 5) q.1 q.2 = 5 := by
  obtain ⟨-, hq2, -⟩ := peakScanPairs_bounds q hq
  unfold windowAvg
  have hmap : (List.range q.2).map (fun _ => ((5 : ℕ) : ℚ)) =
      List.replicate q.2 ((5 : ℕ) : ℚ) := by
    rw [List.map_const']
    rw [List.length_range]
  rw [hmap, List.sum_replicate, nsmul_eq_mul]
  push_cast
  rw [mul_comm]
  rw [mul_div_assoc]
  rw [div_self (by positivity : (q.2 : ℚ) ≠ 0)]
  ring

set_option maxRecDepth 100000 in
/-- C3 counterexample: on the flat risk-5 curve the first maximal window in
scan order is (start 0, length 3), but the code returns `endHour = 3`, not
`(0 + 3 - 1) % 24 = 2`: the claim as stated is false. -/
theorem peak_endHour_counterexample : ¬ PeakClaimAsStated (fun _ => 5) := by
  rintro ⟨s, l, pre, post, hdecomp, hpre, -, -, hend, -⟩
  have hpre_nil : pre = [] := by
    cases pre with
    | nil => rfl
    | cons r pre' =>
        exfalso
        have hr : r ∈ peakScanPairs := by
          rw [hdecomp]
          exact List.mem_append_left _ (List.mem_cons_self _ _)
        have hsl : (s, l) ∈ peakScanPairs := by
          rw [hdecomp]
          exact List.mem_append_right _ (List.mem_cons_self _ _)
        have h1 := windowAvg_const_five r hr
        have h2 := windowAvg_const_five (s, l) hsl
        have := hpre r (List.mem_cons_self _ _)
        rw [h1, h2] at this
        exact lt_irrefl _ this
  subst hpre_nil
  simp only [List.nil_append] at hdecomp
  have hhead : peakScanPairs.head? = some (s, l) := by
    rw [hdecomp]
    rfl
  have hhead03 : peakScanPairs.head? = some (0, 3) := by
    set_option maxRecDepth 4000 in decide
  rw [hhead03] at hhead
  have hp : ((0 : ℕ), (3 : ℕ)) = (s, l) := Option.some.inj hhead
  injection hp with hs hl
  subst hs
  subst hl
  have hcode : (getPeakDangerWindowModel (fun _ => 5)).endHour = 3 := by
    obtain ⟨hmono, hall, hdisj⟩ := peakFoldl_spec (fun _ => 5) peakScanPairs ⟨0, 0, 0⟩
    rcases hdisj with heq | ⟨pre', q, post', hL, h1, h2, h3, h4, h5pre⟩
    · exfalso
      have hmem : ((0, 3) : ℕ × ℕ) ∈ peakScanPairs := by
        set_option maxRecDepth 4000 in decide
      have hle := hall (0, 3) hmem
      rw [heq, windowAvg_const_five (0, 3) hmem] at hle
      simp at hle
      linarith
    · have hpre'_nil : pre' = [] := by
        cases pre' with
        | nil => rfl
        | cons r rest =>
            exfalso
            have hr : r ∈ peakScanPairs := by
              rw [hL]
              exact List.mem_append_left _ (List.mem_cons_self _ _)
            have hq : q ∈ peakScanPairs := by
              rw [hL]
              exact List.mem_append_right _ (List.mem_cons_self _ _)
            have hlt := h5pre r (List.mem_cons_self _ _)
            rw [h1, windowAvg_const_five r hr, windowAvg_const_five q hq] at hlt
            exact lt_irrefl _ hlt
      subst hpre'_nil
      simp only [List.nil_append] at hL
      have hqhead : peakScanPairs.head? = some q := by
        rw [hL]
        rfl
      have hqhead03 : peakScanPairs.head? = some (0, 3) := by
        set_option maxRecDepth 4000 in decide
      rw [hqhead03] at hqhead
      have hpq : ((0 : ℕ), (3 : ℕ)) = q := Option.some.inj hqhead
      show (peakScanPairs.foldl (peakStep (fun _ => 5)) ⟨0, 0, 0⟩).maxEnd = 3
      rw [h3, ← hpq]
      rfl
  rw [hcode] at hend
  norm_num at hend

theorem mem_insertFactorDesc {a x : RiskFactor} {l : List RiskFactor} :
    a ∈ insertFactorDesc x l ↔ a = x ∨ a ∈ l := by
  induction l with
  | nil => simp [insertFactorDesc]
  | cons y ys ih =>
      unfold insertFactorDesc
      by_cases h : y.impact < x.impact
      · simp [h]
      · rw [if_neg h]
        simp only [List.mem_cons, ih]
        tauto

theorem length_insertFactorDesc (x : RiskFactor) (l : List RiskFactor) :
    (insertFactorDesc x l).length = l.length + 1 := by
  induction l with
  | nil => rfl
  | cons y ys ih =>
      unfold insertFactorDesc
      by_cases h : y.impact < x.impact
      · simp [h]
      · rw [if_neg h]
        simp [ih]

theorem length_sortFactorsDesc (l : List RiskFactor) :
    (sortFactorsDesc l).length = l.length := by
  induction l with
  | nil => rfl
  | cons x xs ih =>
      unfold sortFactorsDesc
      rw [length_insertFactorDesc, ih, List.length_cons]

theorem mem_sortFactorsDesc {a : RiskFactor} {l : List RiskFactor} :
    a ∈ sortFactorsDesc l ↔ a ∈ l := by
  induction l with
  | nil => simp [sortFactorsDesc]
  | cons x xs ih =>
      unfold sortFactorsDesc
      rw [mem_insertFactorDesc, ih, List.mem_cons]

theorem sorted_insertFactorDesc {x : RiskFactor} {l : List RiskFactor}
    (h : l.Pairwise (fun a b => b.impact ≤ a.impact)) :
    (insertFactorDesc x l).Pairwise (fun a b => b.impact ≤ a.impact) := by
  induction l with
  | nil => simp [insertFactorDesc]
  | cons y ys ih =>
      unfold insertFactorDesc
      rcases List.pairwise_cons.mp h with ⟨hy, hys⟩
      by_cases hlt : y.impact < x.impact
      · rw [if_pos hlt]
        refine List.pairwise_cons.mpr ⟨?_, h⟩
        intro z hz
        rcases List.mem_cons.mp hz with rfl | hmem
        · exact le_of_lt hlt
        · exact le_trans (hy z hmem) (le_of_lt hlt)
      · rw [if_neg hlt]
        refine List.pairwise_cons.mpr ⟨?_, ih hys⟩
        intro z hz
        rcases mem_insertFactorDesc.mp hz with rfl | hmem
        · exact not_lt.mp hlt
        · exact hy z hmem

theorem sorted_sortFactorsDesc (l : List RiskFactor) :
    (sortFactorsDesc l).Pairwise (fun a b => b.impact ≤ a.impact) := by
  induction l with
  | nil => simp [sortFactorsDesc]
  | cons x xs ih => exact sorted_insertFactorDesc ih

theorem withProtective_has_protective (f : PredictionFeatures) :
    ∃ x ∈ withProtective f, x.severity = Severity.protective := by
  unfold withProtective
  by_cases h : (rawFactors f).any (fun x => x.severity = Severity.protective)
  · rw [if_pos h]
    obtain ⟨x, hx, hsev⟩ := List.any_eq_true.mp h
    exact ⟨x, hx, by simpa using hsev⟩
  · rw [if_neg h]
    by_cases hl : f.isLateNight = false
    · exact ⟨⟨"Stable circadian rhythm", 15, Severity.protective⟩,
        List.mem_append_right _ (by simp [hl]), rfl⟩
    · exact ⟨⟨"Monitoring active", 10, Severity.protective⟩,
        List.mem_append_right _ (by simp [hl]), rfl⟩

theorem withProtective_ne_nil (f : PredictionFeatures) :
    1 ≤ (withProtective f).length := by
  obtain ⟨x, hx, -⟩ := withProtective_has_protective f
  cases hmem : withProtective f with
  | nil => rw [hmem] at hx; exact absurd hx (List.not_mem_nil x)
  | cons y ys => simp

/-- C8 (amended). For every feature tuple, the returned factor list is sorted
by impact descending, has between 1 and 5 entries, the pre-truncation list
always contains a protective entry (so the "Baseline activity" fallback never
fires), the returned list keeps a protective entry whenever the pre-truncation
list has at most 5 entries, and when no scoring rule fires the result is the
single protective "Stable circadian rhythm" entry. -/
theorem generateReasoning_spec (f : PredictionFeatures) (p : ℝ) :
    (generateReasoning f p).Pairwise (fun a b => b.impact ≤ a.impact) ∧
    (generateReasoning f p).length ≤ 5 ∧
    1 ≤ (generateReasoning f p).length ∧
    (∃ x ∈ withProtective f, x.severity = Severity.protective) ∧
    ((withProtective f).length ≤ 5 →
      ∃ x ∈ generateReasoning f p, x.severity = Severity.protective) ∧
    (f.isLateNight = false → f.screenUnlocksLastHour ≤ 5 → f.stressLevel ≤ 0 →
      f.lonelinessLevel ≤ 0 → f.eveningRoutineDone = false → f.hour < 20 →
      1 ≤ f.hoursSinceLastUrge →
      generateReasoning f p = [⟨"Stable circadian rhythm", 15, Severity.protective⟩]) := by
  have hlen := length_sortFactorsDesc (withProtective f)
  have hsorted := sorted_sortFactorsDesc (withProtective f)
  have hne := withProtective_ne_nil f
  refine ⟨?_, ?_, ?_, withProtective_has_protective f, ?_, ?_⟩
  · simp only [generateReasoning]
    by_cases h5 : 5 < (sortFactorsDesc (withProtective f)).length
    · rw [if_pos h5]
      have htake : ((sortFactorsDesc (withProtective f)).take 5).Pairwise
          (fun a b => b.impact ≤ a.impact) :=
        List.Pairwise.sublist (List.take_sublist _ _) hsorted
      have hlen5 : ((sortFactorsDesc (withProtective f)).take 5).length = 5 := by
        rw [List.length_take]
        omega
      rw [if_neg (by omega)]
      exact htake
    · rw [if_neg h5]
      by_cases h0 : (sortFactorsDesc (withProtective f)).length = 0
      · rw [if_pos h0]
        simp
      · rw [if_neg h0]
        exact hsorted
  · simp only [generateReasoning]
    by_cases h5 : 5 < (sortFactorsDesc (withProtective f)).length
    · rw [if_pos h5]
      have hlen5 : ((sortFactorsDesc (withProtective f)).take 5).length = 5 := by
        rw [List.length_take]
        omega
      rw [if_neg (by omega)]
      omega
    · rw [if_neg h5]
      by_cases h0 : (sortFactorsDesc (withProtective f)).length = 0
      · rw [if_pos h0]
        simp
      · rw [if_neg h0]
        omega
  · simp only [generateReasoning]
    by_cases h5 : 5 < (sortFactorsDesc (withProtective f)).length
    · rw [if_pos h5]
      have hlen5 : ((sortFactorsDesc (withProtective f)).take 5).length = 5 := by
        rw [List.length_take]
        omega
      rw [if_neg (by omega)]
      omega
    · rw [if_neg h5]
      by_cases h0 : (sortFactorsDesc (withProtective f)).length = 0
      · rw [if_pos h0]
        simp
      · rw [if_neg h0]
        omega
  · intro hle
    obtain ⟨x, hx, hsev⟩ := withProtective_has_protective f
    have hx' : x ∈ sortFactorsDesc (withProtective f) := mem_sortFactorsDesc.mpr hx
    simp only [generateReasoning]
    have hc1 : ¬ 5 < (sortFactorsDesc (withProtective f)).length := by omega
    rw [if_neg hc1]
    have hc2 : ¬ (sortFactorsDesc (withProtective f)).length = 0 := by omega
    rw [if_neg hc2]
    exact ⟨x, hx', hsev⟩
  · intro h1 h2 h3 h4 h5 h6 h7
    have hraw : rawFactors f = [] := by
      unfold rawFactors
      rw [if_neg (by simp [h1]), if_neg (by omega), if_neg (by omega), if_neg (by omega),
        if_neg (by omega), if_neg (by simp [h5]), if_neg (by push_neg; linarith)]
      rfl
    have hwith : withProtective f =
        [⟨"Stable circadian rhythm", 15, Severity.protective⟩] := by
      unfold withProtective
      rw [hraw]
      rw [if_neg (by simp)]
      rw [if_pos h1]
      rfl
    simp only [generateReasoning]
    rw [hwith]
    rfl

/-- Witness for C8 (amended) at a quiet daytime feature tuple. -/
theorem generateReasoning_spec_witness :
    ((withProtective (mkFeatures 10 0 0 24 false 0 0)).length ≤ 5 →
      ∃ x ∈ generateReasoning (mkFeatures 10 0 0 24 false 0 0) 0,
        x.severity = Severity.protective) ∧
    generateReasoning (mkFeatures 10 0 0 24 false 0 0) 0 =
      [⟨"Stable circadian rhythm", 15, Severity.protective⟩] := by
  have h := generateReasoning_spec (mkFeatures 10 0 0 24 false 0 0) 0
  exact ⟨h.2.2.2.2.1,
    h.2.2.2.2.2 (by decide) (by decide) (by decide) (by decide) (by decide) (by decide)
      (by norm_num [mkFeatures])⟩

/-- C8 counterexample: at late night with 16 unlocks/hr, stress 2, loneliness
2 and a skipped evening routine, five non-protective factors outrank the
synthesized protective entry (impact 10), and the top-5 truncation drops it:
the returned list has no protective entry. -/
theorem generateReasoning_protective_counterexample :
    ¬ ∃ x ∈ generateReasoning (mkFeatures 22 0 16 3 false 2 2) 0,
      x.severity = Severity.protective := by
  decide

/-- C7. The prediction cache returns the stored result unchanged when the
feature hash matches and the slot is younger than 5 minutes (300000 ms);
on hash mismatch, on age ≥ 5 minutes, or after `invalidatePredictionCache`,
the result is freshly computed and overwrites the single slot. -/
theorem predictionCache_behavior (c : PredictionCacheSlot) (now : ℤ)
    (f : PredictionFeatures) :
    (c.inputHash = f → now - c.timestamp < 300000 →
      predictStep (some c) now f = (c.result, some c)) ∧
    (c.inputHash ≠ f →
      predictStep (some c) now f = (predictCompute f, some ⟨predictCompute f, f, now⟩)) ∧
    (300000 ≤ now - c.timestamp →
      predictStep (some c) now f = (predictCompute f, some ⟨predictCompute f, f, now⟩)) ∧
    predictStep (invalidatePredictionCache (some c)) now f =
      (predictCompute f, some ⟨predictCompute f, f, now⟩) := by
  refine ⟨?_, ?_, ?_, rfl⟩
  · intro h1 h2
    simp only [predictStep]
    rw [if_pos ⟨h1, h2⟩]
  · intro h1
    simp only [predictStep]
    rw [if_neg (fun hc => h1 hc.1)]
  · intro h2
    simp only [predictStep]
    rw [if_neg (fun hc => absurd hc.2 (not_lt.mpr h2))]

/-- Witness for C7: a fresh slot written at time 0, hit at time 1000. -/
theorem predictionCache_behavior_witness :
    predictStep
      (some ⟨⟨0, Confidence.medium, RiskLevel.LOW, []⟩, mkFeatures 5 0 0 1 true 0 0, 0⟩)
      1000 (mkFeatures 5 0 0 1 true 0 0) =
      ((⟨0, Confidence.medium, RiskLevel.LOW, []⟩ : PredictionResult),
       some ⟨⟨0, Confidence.medium, RiskLevel.LOW, []⟩, mkFeatures 5 0 0 1 true 0 0, 0⟩) :=
  (predictionCache_behavior
    ⟨⟨0, Confidence.medium, RiskLevel.LOW, []⟩, mkFeatures 5 0 0 1 true 0 0, 0⟩
    1000 (mkFeatures 5 0 0 1 true 0 0)).1 rfl (by norm_num)

/-- C4 (amended). For every feature tuple the unrounded sigmoid probability is
strictly in (0,1); the stored probability, rounded to two decimals, is in
[0,1]; and the cache-miss computation is a function of the feature tuple
alone (two cache-bypassing calls agree regardless of time). -/
theorem predictUrgeRisk_probability (f : PredictionFeatures) :
    0 < sigmoid (computeZ f) ∧ sigmoid (computeZ f) < 1 ∧
    0 ≤ (predictCompute f).probability ∧ (predictCompute f).probability ≤ 1 ∧
    ∀ now1 now2 : ℤ, (predictStep none now1 f).1 = (predictStep none now2 f).1 := by
  have hexp := Real.exp_pos (-(computeZ f))
  have hden : 0 < 1 + Real.exp (-(computeZ f)) := by linarith
  have h0 : 0 < sigmoid (computeZ f) := by
    unfold sigmoid
    positivity
  have h1 : sigmoid (computeZ f) < 1 := by
    unfold sigmoid
    rw [div_lt_one hden]
    linarith
  have hprob : (predictCompute f).probability = jsRound2 (sigmoid (computeZ f)) := rfl
  refine ⟨h0, h1, ?_, ?_, fun _ _ => rfl⟩
  · rw [hprob]
    unfold jsRound2
    have hfl : (0 : ℤ) ≤ ⌊sigmoid (computeZ f) * 100 + 1/2⌋ := by
      apply Int.le_floor.mpr
      push_cast
      nlinarith
    have : (0 : ℝ) ≤ (⌊sigmoid (computeZ f) * 100 + 1/2⌋ : ℝ) := by exact_mod_cast hfl
    linarith
  · rw [hprob]
    unfold jsRound2
    have hfl : ⌊sigmoid (computeZ f) * 100 + 1/2⌋ ≤ 100 := by
      have hlt : ⌊sigmoid (computeZ f) * 100 + 1/2⌋ < 101 := by
        apply Int.floor_lt.mpr
        push_cast
        nlinarith
      omega
    rw [div_le_one (by norm_num)]
    have : ((⌊sigmoid (computeZ f) * 100 + 1/2⌋ : ℤ) : ℝ) ≤ ((100 : ℤ) : ℝ) :=
      Int.cast_le.mpr hfl
    simpa using this

/-- C4 counterexample: with a recent urge (refractory bonus −4.0) and a
completed routine at 5 AM, `z = −6.9`, the sigmoid is ≈ 0.001, and
`Math.round(p·100)/100` rounds the stored probability to exactly 0: the
returned probability is not strictly greater than 0. -/
theorem predict_probability_zero_counterexample :
    ¬ 0 < (predictCompute (mkFeatures 5 0 0 1 true 0 0)).probability := by
  have hf : mkFeatures 5 0 0 1 true 0 0 =
      ⟨5, 0, 0, 1, true, false, true, 0, 0⟩ := by decide
  have hz : computeZ (mkFeatures 5 0 0 1 true 0 0) = -(69/10) := by
    rw [hf]
    unfold computeZ MODEL_WEIGHTS
    norm_num
  have hexp : (199 : ℝ) < Real.exp (69/10) := by
    have h27 : (2.7 : ℝ) < Real.exp 1 := by
      have := Real.exp_one_gt_d9
      linarith
    have hp : (2.7 : ℝ)^6 ≤ (Real.exp 1)^6 :=
      pow_le_pow_left₀ (by norm_num) (le_of_lt h27) 6
    have he6 : (Real.exp 1)^6 = Real.exp 6 := by
      rw [← Real.exp_nat_mul]
      norm_num
    have hmono : Real.exp 6 < Real.exp (69/10) := Real.exp_lt_exp.mpr (by norm_num)
    nlinarith
  have hσ : sigmoid (computeZ (mkFeatures 5 0 0 1 true 0 0)) =
      1 / (1 + Real.exp (69/10)) := by
    rw [hz]
    unfold sigmoid
    norm_num
  have hpos : 0 < 1 + Real.exp (69/10) := by positivity
  have hσlt : sigmoid (computeZ (mkFeatures 5 0 0 1 true 0 0)) < 1/200 := by
    rw [hσ, div_lt_div_iff₀ hpos (by norm_num)]
    linarith
  have hσpos : 0 < sigmoid (computeZ (mkFeatures 5 0 0 1 true 0 0)) := by
    rw [hσ]
    positivity
  have hfl : ⌊sigmoid (computeZ (mkFeatures 5 0 0 1 true 0 0)) * 100 + 1/2⌋ = 0 := by
    rw [Int.floor_eq_zero_iff, Set.mem_Ico]
    constructor
    · linarith
    · linarith
  show ¬ 0 < jsRound2 (sigmoid (computeZ (mkFeatures 5 0 0 1 true 0 0)))
  unfold jsRound2
  rw [hfl]
  norm_num

theorem isTP_isTN (row : ℤ × Bool) : isTP row = true → isTN row = false := by
  unfold isTP isTN
  intro h
  rw [Bool.and_eq_true] at h
  simp [h.2]

/-- The accuracy loop counts exactly the TP and TN rows and the length. -/
theorem accuracyFoldl (rows : List (ℤ × Bool)) :
    ∀ acc : ℕ × ℕ × ℕ, rows.foldl accStep acc =
      (acc.1 + rows.countP isTP, acc.2.1 + rows.countP isTN, acc.2.2 + rows.length) := by
  induction rows with
  | nil =>
      intro acc
      simp
  | cons r rest ih =>
      intro acc
      rw [List.foldl_cons, ih]
      by_cases h1 : isTP r = true
      · have htn := isTP_isTN r h1
        have hstep : accStep acc r = (acc.1 + 1, acc.2.1, acc.2.2 + 1) := by
          simp [accStep, h1]
        have hc1 : List.countP isTP (r :: rest) = List.countP isTP rest + 1 := by
          simp [List.countP_cons, h1]
        have hc2 : List.countP isTN (r :: rest) = List.countP isTN rest := by
          simp [List.countP_cons, htn]
        rw [hstep, hc1, hc2, List.length_cons]
        simp [Prod.ext_iff]
        omega
      · by_cases h2 : isTN r = true
        · have hstep : accStep acc r = (acc.1, acc.2.1 + 1, acc.2.2 + 1) := by
            simp [accStep, h1, h2]
          have hc1 : List.countP isTP (r :: rest) = List.countP isTP rest := by
            simp [List.countP_cons, h1]
          have hc2 : List.countP isTN (r :: rest) = List.countP isTN rest + 1 := by
            simp [List.countP_cons, h2]
          rw [hstep, hc1, hc2, List.length_cons]
          simp [Prod.ext_iff]
          omega
        · have hstep : accStep acc r = (acc.1, acc.2.1, acc.2.2 + 1) := by
            simp [accStep, h1, h2]
          have hc1 : List.countP isTP (r :: rest) = List.countP isTP rest := by
            simp [List.countP_cons, h1]
          have hc2 : List.countP isTN (r :: rest) = List.countP isTN rest := by
            simp [List.countP_cons, h2]
          rw [hstep, hc1, hc2, List.length_cons]
          simp [Prod.ext_iff]
          omega

/-- C9. `calculateModelAccuracy` returns 58 when the query fails or fewer
than 5 samples exist; otherwise it returns `round((TP + TN) / total * 100)`
with TP = samples with risk ≥ 60 and an urge in the 2-hour window, TN =
samples with risk < 60 and no urge; the per-row urge flag holds iff some
urge log lies in `[t, t + 7200000]`. -/
theorem calculateModelAccuracy_spec (snaps : List RiskSnapshot) (urgeLogs : List ℤ)
    (now : ℤ) (rows : List (ℤ × Bool)) :
    calculateModelAccuracy none = 58 ∧
    (rows.length < 5 → calculateModelAccuracy (some rows) = 58) ∧
    (5 ≤ rows.length →
      calculateModelAccuracy (some rows) =
        jsRound (((rows.countP isTP + rows.countP isTN : ℕ) : ℚ) / rows.length * 100)) ∧
    (∀ r : RiskSnapshot, urgeWithinWindow urgeLogs r = true ↔
      ∃ t ∈ urgeLogs, r.timestamp ≤ t ∧ t ≤ r.timestamp + 7200000) ∧
    (∀ row ∈ accuracyRows snaps urgeLogs now, ∃ sn ∈ snaps,
      now - 30 * 24 * 60 * 60 * 1000 < sn.timestamp ∧
      row = (sn.score, urgeWithinWindow urgeLogs sn)) := by
  refine ⟨rfl, ?_, ?_, ?_, ?_⟩
  · intro h
    simp only [calculateModelAccuracy]
    rw [if_pos h]
  · intro h
    have hF : rows.foldl accStep (0, 0, 0) =
        (rows.countP isTP, rows.countP isTN, rows.length) := by
      rw [accuracyFoldl rows (0, 0, 0)]
      simp
    simp only [calculateModelAccuracy]
    rw [if_neg (by omega)]
    rw [hF]
    rw [if_neg (by dsimp only; omega)]
    dsimp only
    push_cast
    ring_nf
  · intro r
    unfold urgeWithinWindow
    rw [List.any_eq_true]
    constructor
    · rintro ⟨t, ht, hcond⟩
      exact ⟨t, ht, by simpa using hcond⟩
    · rintro ⟨t, ht, hcond⟩
      exact ⟨t, ht, by simpa using hcond⟩
  · intro row hrow
    unfold accuracyRows at hrow
    obtain ⟨sn, hsn, rfl⟩ := List.mem_map.mp hrow
    rw [List.mem_filter] at hsn
    exact ⟨sn, hsn.1, by simpa using hsn.2, rfl⟩

/-- Witness for C9 on five concrete samples: 2 TP, 1 TN, accuracy 60. -/
theorem calculateModelAccuracy_spec_witness :
    5 ≤ ([((80 : ℤ), true), (80, false), (10, false), (10, true), (70, true)]).length ∧
    calculateModelAccuracy (some [((80 : ℤ), true), (80, false), (10, false), (10, true), (70, true)]) =
      jsRound (((([((80 : ℤ), true), (80, false), (10, false), (10, true), (70, true)]).countP isTP +
        ([((80 : ℤ), true), (80, false), (10, false), (10, true), (70, true)]).countP isTN : ℕ) : ℚ) /
        ([((80 : ℤ), true), (80, false), (10, false), (10, true), (70, true)]).length * 100) :=
  ⟨by decide,
   (calculateModelAccuracy_spec [] [] 0
     [((80 : ℤ), true), (80, false), (10, false), (10, true), (70, true)]).2.2.1 (by decide)⟩

end Relapse
